import Mathlib

/-!
Verification of the hsdb_spd spectral-data processor against its
specification.  The Python sources are shallowly embedded: text buffers
become lists of characters, machine floats become exact rationals, the
fallible bodies that Python wraps in `try`/`except` become `Except`
computations whose catch is the explicit map to `none`, and the
third-party `findpeaks` detector and the HTTP collaborators become
oracle parameters that the theorems quantify over.
-/

namespace HsdbSpd

/-! ## Text buffers and Python string primitives -/

/-- A raw decoded text buffer, modelled as its list of characters. -/
abbrev Buf := List Char

/-- Python `str.strip()`: drop leading and trailing whitespace. -/
def pyStrip (l : List Char) : List Char :=
  ((l.dropWhile Char.isWhitespace).reverse.dropWhile Char.isWhitespace).reverse

/-- A line is blank exactly when Python's `line.rstrip()` is falsy, i.e. every
character is whitespace. -/
def isBlankLine (l : List Char) : Bool := (pyStrip l).isEmpty

/-- Numeric value of a digit run, most significant digit first. -/
def digitsToNat (cs : List Char) : Nat :=
  cs.foldl (fun a c => a * 10 + (c.toNat - 48)) 0

/-- The digit structure of an unsigned plain decimal literal (`12`, `12.`,
`.5`, `1.25`): integer digits, an optional point, fraction digits, with at
least one digit overall and nothing else.  Result: integer part, fraction
digits' value, fraction digit count.  Exponent forms and the special words
are outside the model; every literal the repository's data paths read is
plain decimal. -/
def parseUnsignedParts (cs : List Char) : Option (ℕ × ℕ × ℕ) :=
  let ip := cs.takeWhile Char.isDigit
  let rest := cs.dropWhile Char.isDigit
  match rest with
  | [] => if ip.isEmpty then none else some (digitsToNat ip, 0, 0)
  | '.' :: fp =>
      if fp.all Char.isDigit && !(ip.isEmpty && fp.isEmpty) then
        some (digitsToNat ip, digitsToNat fp, fp.length)
      else none
  | _ => none

/-- Rational value of a parsed unsigned decimal literal. -/
def partsToRat (p : ℕ × ℕ × ℕ) : ℚ := (p.1 : ℚ) + (p.2.1 : ℚ) / (10 : ℚ) ^ p.2.2

/-- Python `float()` on an unsigned plain decimal literal. -/
def parseUnsignedFloat (cs : List Char) : Option ℚ :=
  (parseUnsignedParts cs).map partsToRat

/-- Python `float()` with its optional sign; a `ValueError` is `none`. -/
def pyFloat (cs : List Char) : Option ℚ :=
  match cs with
  | '+' :: rest => parseUnsignedFloat rest
  | '-' :: rest => (parseUnsignedFloat rest).map Neg.neg
  | _ => parseUnsignedFloat cs

theorem pyFloat_of_parts (cs : List Char) (i f e : ℕ)
    (hplus : cs.head? ≠ some '+') (hminus : cs.head? ≠ some '-')
    (hp : parseUnsignedParts cs = some (i, f, e)) :
    pyFloat cs = some ((i : ℚ) + (f : ℚ) / (10 : ℚ) ^ e) := by
  unfold pyFloat
  split
  · simp at hplus
  · simp at hminus
  · unfold parseUnsignedFloat
    rw [hp]
    rfl

/-- Python `int()` on a plain signed digit literal; a `ValueError` is `none`. -/
def pyInt (cs : List Char) : Option ℤ :=
  match cs with
  | '+' :: rest =>
      if !rest.isEmpty && rest.all Char.isDigit then some (digitsToNat rest : ℤ) else none
  | '-' :: rest =>
      if !rest.isEmpty && rest.all Char.isDigit then some (-(digitsToNat rest : ℤ)) else none
  | _ => if !cs.isEmpty && cs.all Char.isDigit then some (digitsToNat cs : ℤ) else none

/-- Split a buffer at newline characters, accumulator first. -/
def splitLinesAux (acc : List Char) : List Char → List (List Char)
  | [] => [acc.reverse]
  | c :: rest =>
      if c = '\n' then acc.reverse :: splitLinesAux [] rest
      else splitLinesAux (c :: acc) rest

/-- Drop one trailing carriage return, as universal-newline reading does. -/
def dropCR (l : List Char) : List Char :=
  match l.getLast? with
  | some c => if c = '\r' then l.dropLast else l
  | none => l

/-- The buffer's lines: split at `\n`, drop the empty piece a trailing newline
leaves (it ends the last line rather than opening a new one) and a trailing
`\r` on each line. -/
def splitLines (b : Buf) : List (List Char) :=
  let parts := splitLinesAux [] b
  (if parts.getLast? = some [] then parts.dropLast else parts).map dropCR

/-- Split a line on a delimiter character, keeping empty fields. -/
def splitOnCharAux (d : Char) (acc : List Char) : List Char → List (List Char)
  | [] => [acc.reverse]
  | c :: rest =>
      if c = d then acc.reverse :: splitOnCharAux d [] rest
      else splitOnCharAux d (c :: acc) rest

/-- Split a line on a delimiter character. -/
def splitOnChar (d : Char) (l : List Char) : List (List Char) := splitOnCharAux d [] l

/-- Join fields with a separator, the csv writer's serialization of one row. -/
def joinWith (d : List Char) : List (List Char) → List Char
  | [] => []
  | [x] => x
  | x :: rest => x ++ d ++ joinWith d rest

/-- Python `re.sub(" +", " ", s)`: collapse every run of spaces to one space. -/
def collapseSpacesAux (prevSpace : Bool) : List Char → List Char
  | [] => []
  | c :: rest =>
      if c = ' ' then
        (if prevSpace then [] else [' ']) ++ collapseSpacesAux true rest
      else c :: collapseSpacesAux false rest

/-- Collapse runs of spaces, as `re.sub(" +", " ", line)` does. -/
def collapseSpaces (l : List Char) : List Char := collapseSpacesAux false l

/-- Python `str.replace` on single characters. -/
def replaceChar (a b : Char) (l : List Char) : List Char :=
  l.map fun c => if c = a then b else c

/-- Sequence a list of optional results; one failure fails the whole list, as
an exception inside a Python loop aborts the loop. -/
def traverseOption {α β : Type} (f : α → Option β) : List α → Option (List β)
  | [] => some []
  | x :: xs =>
      match f x, traverseOption f xs with
      | some y, some ys => some (y :: ys)
      | _, _ => none

theorem traverseOption_length {α β : Type} (f : α → Option β) :
    ∀ (l : List α) (ys : List β), traverseOption f l = some ys → ys.length = l.length := by
  intro l
  induction l with
  | nil => intro ys h; simp [traverseOption] at h; simp [← h]
  | cons x xs ih =>
      intro ys h
      simp only [traverseOption] at h
      cases hx : f x with
      | none => rw [hx] at h; simp at h
      | some y =>
          rw [hx] at h
          cases hxs : traverseOption f xs with
          | none => rw [hxs] at h; simp at h
          | some ys2 =>
              rw [hxs] at h
              simp at h
              subst h
              simp [ih ys2 hxs]

/-! ## numpy primitives, idealized over exact rationals -/

/-- `np.max` of a one-dimensional array; the sources apply it to non-empty
data only (numpy raises on empty input, inside the callers' `try`). -/
def npMax : List ℚ → ℚ
  | [] => 0
  | x :: xs => xs.foldl max x

/-- `np.linspace(start, stop, num)` with the default endpoint: `num` evenly
spaced samples from `start` to `stop`; a negative `num` raises `ValueError`
(`none`).  Over ℚ the `num = 1` case lands on `start` because the division by
zero is zero. -/
def npLinspace (start stop : ℚ) (num : ℤ) : Option (List ℚ) :=
  if num < 0 then none
  else some ((List.range num.toNat).map fun (k : ℕ) =>
    start + (k : ℚ) * ((stop - start) / ((num : ℚ) - 1)))

/-- `np.arange(start, stop, step)` over ℚ: `⌈(stop-start)/step⌉` samples
`start + k*step`.  The zero-step case (only reachable here when the sampling
interval is zero, where the float code raises inside its `try`) returns the
empty grid. -/
def npArange (start stop step : ℚ) : List ℚ :=
  if step = 0 then []
  else (List.range (⌈(stop - start) / step⌉).toNat).map fun (k : ℕ) =>
    start + (k : ℚ) * step

/-- `COMMON_RANGE_FREQ_INTERVAL` of `app/tools/utils.py` line 54. -/
def COMMON_RANGE_FREQ_INTERVAL : ℚ × ℚ := (0.2, 1.0)

/-- `FIT_FREQ_INTERVAL` of `app/tools/utils.py` line 53. -/
def FIT_FREQ_INTERVAL : ℚ × ℚ := (0.1, 0.5)

/-! ## The THz common-range restriction (`process_thz`, lines 256-313) -/

/-- The frequency grid of `process_thz`:
`np.arange(0, 1/Δ, 1/(Δ*len(ref_fft)))` with the padded fft length 10000,
`Δ` the reference trace's sampling interval (lines 256-261). -/
def thzFrequencies (Δ : ℚ) : List ℚ := npArange 0 (1 / Δ) (1 / (Δ * 10000))

/-- `np.diff(np.transpose(ref_data)[0, :2])[0]` (line 256): the spacing of the
reference trace's first two time samples.  (On traces shorter than two samples
the float code raises inside the `try`; the model's out-of-range default is
never reached on inputs the analysis accepts.) -/
def samplingInterval (refTimes : List ℚ) : ℚ := refTimes.getD 1 0 - refTimes.getD 0 0

/-- `np.ma.masked_inside(xs, lo, hi).mask`: true at the entries lying between
the bounds, endpoints included. -/
def maskedInside (lo hi : ℚ) (xs : List ℚ) : List Bool :=
  xs.map fun f => decide (lo ≤ f) && decide (f ≤ hi)

/-- Row selection by a boolean mask, `arr[mask]`. -/
def boolMaskFilter {α : Type} : List Bool → List α → List α
  | b :: bs, x :: xs =>
      if b then x :: boolMaskFilter bs xs else boolMaskFilter bs xs
  | _, _ => []

/-- Stack three columns into rows, `np.array([a, b, c]).T`. -/
def zip3 {α β γ : Type} : List α → List β → List γ → List (α × β × γ)
  | x :: xs, y :: ys, z :: zs => (x, y, z) :: zip3 xs ys zs
  | _, _, _ => []

/-- Lines 298-313 of `app/tasks/processing.py`: stack the frequency,
refraction-index and absorption-index columns and keep the rows the
`COMMON_RANGE_FREQ_INTERVAL` mask (computed on the frequency column) admits —
the restricted `data` that line 314 then stacks with the sample trace.  The
refraction and absorption columns enter as parameters: the restriction behaves
the same whatever the FFT stage produced. -/
def thzCommonRangeRows (Δ : ℚ) (refr absorp : List ℚ) : List (ℚ × ℚ × ℚ) :=
  boolMaskFilter
    (maskedInside COMMON_RANGE_FREQ_INTERVAL.1 COMMON_RANGE_FREQ_INTERVAL.2 (thzFrequencies Δ))
    (zip3 (thzFrequencies Δ) refr absorp)

/-- The row count of the table line 314 builds: `pd.DataFrame` on the five
ragged rows `[*data.T, *sample_data.T]` aligns them to the longest, so the
transposed table has `max` of the five column lengths many rows. -/
def thzFullLen (Δ : ℚ) (refr absorp delay signal : List ℚ) : ℕ :=
  max (max (max (max ((thzCommonRangeRows Δ refr absorp).map fun t => t.1).length
    ((thzCommonRangeRows Δ refr absorp).map fun t => t.2.1).length)
    ((thzCommonRangeRows Δ refr absorp).map fun t => t.2.2).length)
    delay.length) signal.length

/-- Line 314 of `process_thz`:
`pd.DataFrame([*data.T, *sample_data.T]).to_numpy().T` — the three restricted
columns stacked with the sample trace's delay and signal columns, each padded
with NaN (modelled as `none`) to the longest column.  This is the table
`np.savetxt` then writes: its rows, not just the restricted triples, are the
returned result. -/
def thzFullData (Δ : ℚ) (refr absorp delay signal : List ℚ) :
    List (Option ℚ × Option ℚ × Option ℚ × Option ℚ × Option ℚ) :=
  (List.range (thzFullLen Δ refr absorp delay signal)).map fun i =>
    (((thzCommonRangeRows Δ refr absorp).map fun t => t.1)[i]?,
     ((thzCommonRangeRows Δ refr absorp).map fun t => t.2.1)[i]?,
     ((thzCommonRangeRows Δ refr absorp).map fun t => t.2.2)[i]?,
     delay[i]?, signal[i]?)

theorem zip3_fst_mem {α β γ : Type} :
    ∀ (fs : List α) (rs : List β) (cs : List γ) (t : α × β × γ),
      t ∈ zip3 fs rs cs → t.1 ∈ fs := by
  intro fs
  induction fs with
  | nil => intro rs cs t h; simp [zip3] at h
  | cons f fs ih =>
      intro rs cs t h
      cases rs with
      | nil => simp [zip3] at h
      | cons r rs =>
          cases cs with
          | nil => simp [zip3] at h
          | cons c cs =>
              simp only [zip3, List.mem_cons] at h
              cases h with
              | inl h => subst h; simp
              | inr h => exact List.mem_cons_of_mem _ (ih rs cs t h)

theorem zip3_pairwise_fst {α β γ : Type} {R : α → α → Prop} :
    ∀ (fs : List α) (rs : List β) (cs : List γ), fs.Pairwise R →
      (zip3 fs rs cs).Pairwise fun t t2 => R t.1 t2.1 := by
  intro fs
  induction fs with
  | nil => intro rs cs _; simp [zip3]
  | cons f fs ih =>
      intro rs cs h
      cases rs with
      | nil => simp [zip3]
      | cons r rs =>
          cases cs with
          | nil => simp [zip3]
          | cons c cs =>
              rw [List.pairwise_cons] at h
              refine List.Pairwise.cons ?_ (ih rs cs h.2)
              intro t ht
              exact h.1 t.1 (zip3_fst_mem fs rs cs t ht)

theorem zip3_cons {α β γ : Type} (x : α) (xs : List α) (y : β) (ys : List β)
    (z : γ) (zs : List γ) :
    zip3 (x :: xs) (y :: ys) (z :: zs) = (x, y, z) :: zip3 xs ys zs := rfl

theorem zip3_length {α β γ : Type} :
    ∀ (fs : List α) (rs : List β) (cs : List γ),
      (zip3 fs rs cs).length = min fs.length (min rs.length cs.length) := by
  intro fs
  induction fs with
  | nil => intro rs cs; simp [zip3]
  | cons f fs ih =>
      intro rs cs
      cases rs with
      | nil => simp [zip3]
      | cons r rs =>
          cases cs with
          | nil => simp [zip3]
          | cons c cs =>
              rw [zip3_cons]
              simp only [List.length_cons, ih rs cs]
              omega

theorem thzFullData_freq_cell (Δ : ℚ) (refr absorp delay signal : List ℚ) (i : ℕ)
    (hi : i < thzFullLen Δ refr absorp delay signal) :
    ((thzFullData Δ refr absorp delay signal).map fun r => r.1)[i]? =
      some (((thzCommonRangeRows Δ refr absorp).map fun t => t.1)[i]?) := by
  unfold thzFullData
  rw [List.map_map, List.getElem?_map, List.getElem?_range hi]
  rfl

theorem thzFullData_length (Δ : ℚ) (refr absorp delay signal : List ℚ) :
    (thzFullData Δ refr absorp delay signal).length =
      thzFullLen Δ refr absorp delay signal := by
  unfold thzFullData
  rw [List.length_map, List.length_range]

theorem boolMaskFilter_map_zip3 {α β γ : Type} (p : α → Bool) :
    ∀ (fs : List α) (rs : List β) (cs : List γ),
      boolMaskFilter (fs.map p) (zip3 fs rs cs) =
        (zip3 fs rs cs).filter fun t => p t.1 := by
  intro fs
  induction fs with
  | nil => intro rs cs; simp [zip3, boolMaskFilter]
  | cons f fs ih =>
      intro rs cs
      cases rs with
      | nil => cases hp : p f <;> simp [zip3, boolMaskFilter, hp]
      | cons r rs =>
          cases cs with
          | nil => cases hp : p f <;> simp [zip3, boolMaskFilter, hp]
          | cons c cs =>
              cases hp : p f <;>
                simp [zip3, boolMaskFilter, hp, List.filter_cons, ih rs cs]

theorem thzFrequencies_pairwise (Δ : ℚ) (h : 0 < Δ) :
    (thzFrequencies Δ).Pairwise (· < ·) := by
  have hstep : 0 < 1 / (Δ * 10000) := by positivity
  unfold thzFrequencies npArange
  rw [if_neg (by positivity)]
  refine List.Pairwise.map _ ?_ (List.pairwise_lt_range _)
  intro a b hab
  have hq : (a : ℚ) < (b : ℚ) := by exact_mod_cast hab
  have := mul_lt_mul_of_pos_right hq hstep
  linarith

theorem thzFrequencies_nonpos (Δ : ℚ) (h : Δ < 0) :
    ∀ f ∈ thzFrequencies Δ, f ≤ 0 := by
  have hstep : 1 / (Δ * 10000) < 0 := by
    apply div_neg_of_pos_of_neg one_pos
    nlinarith
  intro f hf
  unfold thzFrequencies npArange at hf
  rw [if_neg (ne_of_lt hstep)] at hf
  rw [List.mem_map] at hf
  obtain ⟨k, -, hk⟩ := hf
  have hkk : (k : ℚ) * (1 / (Δ * 10000)) ≤ 0 :=
    mul_nonpos_of_nonneg_of_nonpos (Nat.cast_nonneg k) (le_of_lt hstep)
  rw [← hk]
  linarith

theorem thz_common_range_restriction_of_interval (Δ : ℚ) (refr absorp : List ℚ) :
    (∀ t ∈ thzCommonRangeRows Δ refr absorp, (0.2 : ℚ) ≤ t.1 ∧ t.1 ≤ 1) ∧
    thzCommonRangeRows Δ refr absorp =
      (zip3 (thzFrequencies Δ) refr absorp).filter
        (fun t => decide ((0.2 : ℚ) ≤ t.1) && decide (t.1 ≤ 1)) ∧
    ((thzCommonRangeRows Δ refr absorp).map fun t => t.1).Pairwise (· < ·) := by
  have hfilter : thzCommonRangeRows Δ refr absorp =
      (zip3 (thzFrequencies Δ) refr absorp).filter
        (fun t => decide ((0.2 : ℚ) ≤ t.1) && decide (t.1 ≤ 1)) := by
    have hint1 : COMMON_RANGE_FREQ_INTERVAL.1 = (0.2 : ℚ) := by
      norm_num [COMMON_RANGE_FREQ_INTERVAL]
    have hint2 : COMMON_RANGE_FREQ_INTERVAL.2 = (1 : ℚ) := by
      norm_num [COMMON_RANGE_FREQ_INTERVAL]
    unfold thzCommonRangeRows maskedInside
    rw [hint1, hint2]
    exact boolMaskFilter_map_zip3 _ (thzFrequencies Δ) refr absorp
  refine ⟨?_, hfilter, ?_⟩
  · intro t ht
    rw [hfilter] at ht
    have := (List.mem_filter.mp ht).2
    simpa using this
  · rw [hfilter]
    rcases lt_trichotomy Δ 0 with hΔ | hΔ | hΔ
    · have hnil : (zip3 (thzFrequencies Δ) refr absorp).filter
          (fun t => decide ((0.2 : ℚ) ≤ t.1) && decide (t.1 ≤ 1)) = [] := by
        rw [List.filter_eq_nil_iff]
        intro t ht
        have h1 : t.1 ≤ 0 :=
          thzFrequencies_nonpos Δ hΔ t.1 (zip3_fst_mem _ refr absorp t ht)
        simp only [Bool.and_eq_true, decide_eq_true_eq, not_and]
        intro h2
        linarith
      rw [hnil]
      simp
    · subst hΔ
      have : thzFrequencies 0 = [] := by
        unfold thzFrequencies npArange
        norm_num
      rw [this]
      simp [zip3]
    · have hpw := thzFrequencies_pairwise Δ hΔ
      have h1 := zip3_pairwise_fst (R := (· < ·)) (thzFrequencies Δ) refr absorp hpw
      have h2 := List.Pairwise.filter
        (fun t : ℚ × ℚ × ℚ => decide ((0.2 : ℚ) ≤ t.1) && decide (t.1 ≤ 1)) h1
      exact List.pairwise_map.mpr h2

/-- C2 amended: whatever time column the reference trace has (the grid spacing
is the difference of its first two samples) and whatever refraction,
absorption, delay and signal columns the other stages produced, the restricted
(frequency, refraction-index, absorption-index) triples all carry in-band
frequencies, the restriction is exactly the discarding filter, and the
restricted frequency sequence is strictly increasing; in the five-column table
the analysis actually returns, every numeric frequency cell is likewise
in-band, but the frequency cells of the rows past the restricted count — NaN
padding from the ragged `pd.DataFrame` stacking with the sample trace — are
NaN, not in-band values. -/
theorem thz_common_range_restriction (refTimes refr absorp delay signal : List ℚ) :
    (∀ t ∈ thzCommonRangeRows (samplingInterval refTimes) refr absorp,
      (0.2 : ℚ) ≤ t.1 ∧ t.1 ≤ 1) ∧
    thzCommonRangeRows (samplingInterval refTimes) refr absorp =
      (zip3 (thzFrequencies (samplingInterval refTimes)) refr absorp).filter
        (fun t => decide ((0.2 : ℚ) ≤ t.1) && decide (t.1 ≤ 1)) ∧
    ((thzCommonRangeRows (samplingInterval refTimes) refr absorp).map
      fun t => t.1).Pairwise (· < ·) ∧
    (∀ (i : ℕ) (q : ℚ),
      ((thzFullData (samplingInterval refTimes) refr absorp delay signal).map
        fun r => r.1)[i]? = some (some q) → (0.2 : ℚ) ≤ q ∧ q ≤ 1) ∧
    (∀ i, i < thzFullLen (samplingInterval refTimes) refr absorp delay signal →
      (((thzFullData (samplingInterval refTimes) refr absorp delay signal).map
        fun r => r.1)[i]? = some none ↔
        (thzCommonRangeRows (samplingInterval refTimes) refr absorp).length ≤ i)) := by
  obtain ⟨hband, hfil, hpw⟩ :=
    thz_common_range_restriction_of_interval (samplingInterval refTimes) refr absorp
  refine ⟨hband, hfil, hpw, ?_, ?_⟩
  · intro i q hq
    by_cases hi : i < thzFullLen (samplingInterval refTimes) refr absorp delay signal
    · rw [thzFullData_freq_cell (samplingInterval refTimes) refr absorp delay signal i hi]
        at hq
      have hcell := Option.some.inj hq
      have hqmem : q ∈ (thzCommonRangeRows (samplingInterval refTimes) refr absorp).map
          fun t => t.1 := by
        rcases List.getElem?_eq_some_iff.mp hcell with ⟨hlt, hget⟩
        rw [← hget]
        exact List.getElem_mem hlt
      rw [List.mem_map] at hqmem
      obtain ⟨t, ht, hteq⟩ := hqmem
      rw [← hteq]
      exact hband t ht
    · exfalso
      have hnone : ((thzFullData (samplingInterval refTimes) refr absorp delay signal).map
          fun r => r.1)[i]? = none := by
        apply List.getElem?_eq_none
        rw [List.length_map, thzFullData_length]
        omega
      rw [hnone] at hq
      exact Option.noConfusion hq
  · intro i hi
    rw [thzFullData_freq_cell (samplingInterval refTimes) refr absorp delay signal i hi]
    constructor
    · intro h
      have hcell := Option.some.inj h
      have := List.getElem?_eq_none_iff.mp hcell
      rw [List.length_map] at this
      exact this
    · intro h
      have : ((thzCommonRangeRows (samplingInterval refTimes) refr absorp).map
          fun t => t.1)[i]? = none := by
        apply List.getElem?_eq_none
        rw [List.length_map]
        exact h
      rw [this]

/-- A 10000-sample column of zeros: the length the FFT stage always gives the
refraction and absorption columns (the padded fft length), and the longest a
sample trace can be while `np.pad(x, (0, 10000 - len(x)))` still succeeds. -/
def thzZeroColumn : List ℚ := List.replicate 10000 0

/-- C2 counterexample: at the reference spacing 1 with 10000-length columns —
the shapes a successful run produces — the returned five-column table has
10000 rows but the bin at frequency 0 is always discarded, so the restricted
frequency column is shorter than the table and the table's 10000th frequency
cell is NaN (`none`): not a value inside the 0.2–1.0 band, and not part of any
strictly increasing numeric sequence. -/
theorem thz_full_data_nan_counterexample :
    (thzFullData 1 thzZeroColumn thzZeroColumn thzZeroColumn thzZeroColumn).length =
      10000 ∧
    ((thzFullData 1 thzZeroColumn thzZeroColumn thzZeroColumn thzZeroColumn).map
      fun r => r.1)[9999]? = some none := by
  have harg : (⌈((1 : ℚ)/1 - 0) / (1/((1 : ℚ)*10000))⌉).toNat = 10000 := by
    norm_num
    rfl
  have hfreq : thzFrequencies 1 =
      (List.range 10000).map (fun k : ℕ => 0 + (k : ℚ) * (1 / ((1 : ℚ) * 10000))) := by
    unfold thzFrequencies npArange
    rw [if_neg (by norm_num), harg]
  have hhead : (0 : ℚ) + ((0 : ℕ) : ℚ) * (1 / ((1 : ℚ) * 10000)) = (0 : ℚ) := by
    norm_num
  have hcons : thzFrequencies 1 = (0 : ℚ) ::
      ((List.range 9999).map fun k : ℕ => 0 + ((k : ℚ) + 1) * (1 / ((1 : ℚ) * 10000))) := by
    rw [hfreq, show (10000 : ℕ) = 9999 + 1 from rfl, List.range_succ_eq_map,
      List.map_cons, List.map_map, hhead]
    refine congrArg (List.cons (0 : ℚ)) ?_
    refine List.map_congr_left fun k hk => ?_
    simp only [Function.comp]
    push_cast
    ring
  have hR : thzZeroColumn = (0 : ℚ) :: List.replicate 9999 0 := rfl
  have hmem : ((0 : ℚ), (0 : ℚ), (0 : ℚ)) ∈
      zip3 (thzFrequencies 1) thzZeroColumn thzZeroColumn := by
    rw [hcons, hR, zip3_cons]
    exact List.mem_cons_self _ _
  have hzclen : thzZeroColumn.length = 10000 := List.length_replicate 10000 0
  have hzlen : (zip3 (thzFrequencies 1) thzZeroColumn thzZeroColumn).length = 10000 := by
    rw [zip3_length, hfreq, List.length_map, List.length_range, hzclen]
    omega
  have hpredfalse : (decide ((0.2 : ℚ) ≤ ((0 : ℚ), (0 : ℚ), (0 : ℚ)).1) &&
      decide (((0 : ℚ), (0 : ℚ), (0 : ℚ)).1 ≤ 1)) = false := by
    have h02 : decide ((0.2 : ℚ) ≤ (0 : ℚ)) = false := by
      rw [decide_eq_false_iff_not]
      norm_num
    rw [show (((0 : ℚ), (0 : ℚ), (0 : ℚ)).1 : ℚ) = 0 from rfl, h02]
    rfl
  have hnp : ¬ ((fun t : ℚ × ℚ × ℚ => decide ((0.2 : ℚ) ≤ t.1) && decide (t.1 ≤ 1))
      ((0 : ℚ), (0 : ℚ), (0 : ℚ)) = true) := by
    show ¬ ((decide ((0.2 : ℚ) ≤ ((0 : ℚ), (0 : ℚ), (0 : ℚ)).1) &&
      decide (((0 : ℚ), (0 : ℚ), (0 : ℚ)).1 ≤ 1)) = true)
    rw [hpredfalse]
    exact fun hcon => Bool.noConfusion hcon
  have hlt : ((zip3 (thzFrequencies 1) thzZeroColumn thzZeroColumn).filter
      (fun t => decide ((0.2 : ℚ) ≤ t.1) && decide (t.1 ≤ 1))).length <
      (zip3 (thzFrequencies 1) thzZeroColumn thzZeroColumn).length := by
    apply List.length_filter_lt_length_iff_exists.mpr
    exact ⟨((0 : ℚ), (0 : ℚ), (0 : ℚ)), hmem, hnp⟩
  have hk : (thzCommonRangeRows 1 thzZeroColumn thzZeroColumn).length ≤ 9999 := by
    rw [(thz_common_range_restriction_of_interval 1 thzZeroColumn thzZeroColumn).2.1]
    omega
  have hfullLen : thzFullLen 1 thzZeroColumn thzZeroColumn thzZeroColumn thzZeroColumn =
      10000 := by
    unfold thzFullLen
    simp only [List.length_map, hzclen]
    omega
  refine ⟨?_, ?_⟩
  · rw [thzFullData_length, hfullLen]
  · rw [thzFullData_freq_cell 1 thzZeroColumn thzZeroColumn thzZeroColumn thzZeroColumn
      9999 (by rw [hfullLen]; norm_num)]
    have hnone : ((thzCommonRangeRows 1 thzZeroColumn thzZeroColumn).map
        fun t => t.1)[9999]? = none := by
      apply List.getElem?_eq_none
      rw [List.length_map]
      omega
    rw [hnone]

/-! ## `convert_dat` (`app/tools/converters.py` lines 137-173) -/

/-- The body of `convert_dat` over the file's lines: count the non-blank
lines, build `np.linspace(0, 40, line_count - 1)`, skip the header line,
parse `float(line.strip())` for each remaining line, and stack the two
columns (`np.vstack` raises on mismatched column lengths).  Any raised
exception is an `Except.error`; the enclosing `try` of the source maps it
to `None` in `convert_dat` below.  The returned row list stands for the
two-column csv the source then serializes. -/
def convertDatBody (lines : List (List Char)) : Except Unit (List (ℚ × ℚ)) :=
  match npLinspace 0 40 (((lines.filter fun l => !isBlankLine l).length : ℤ) - 1) with
  | none => throw ()
  | some xs =>
      match lines with
      | [] => if xs.length = 0 then pure [] else throw ()
      | _header :: rest =>
          match traverseOption (fun l => pyFloat (pyStrip l)) rest with
          | none => throw ()
          | some ys => if xs.length = ys.length then pure (xs.zip ys) else throw ()

/-- `convert_dat`: the body with the enclosing `try`/`except` that turns every
exception into `None`. -/
def convert_dat (lines : List (List Char)) : Option (List (ℚ × ℚ)) :=
  (convertDatBody lines).toOption

theorem convert_dat_success (header : List Char) (data : List (List Char)) (ys : List ℚ)
    (hh : isBlankLine header = false)
    (hd : ∀ l ∈ data, isBlankLine l = false)
    (hp : traverseOption (fun l => pyFloat (pyStrip l)) data = some ys) :
    ∃ xs : List ℚ, npLinspace 0 40 (data.length : ℤ) = some xs ∧
      convert_dat (header :: data) = some (xs.zip ys) ∧
      (xs.zip ys).length = data.length ∧
      xs = (List.range data.length).map
        (fun (k : ℕ) => (k : ℚ) * (40 / ((data.length : ℚ) - 1))) := by
  have hcount : ((header :: data).filter fun l => !isBlankLine l) = header :: data := by
    rw [List.filter_eq_self]
    intro l hl
    rcases List.mem_cons.mp hl with h | h
    · subst h; simp [hh]
    · simp [hd l h]
  have hys : ys.length = data.length := traverseOption_length _ data ys hp
  have hnum : (((header :: data).filter fun l => !isBlankLine l).length : ℤ) - 1 =
      (data.length : ℤ) := by
    rw [hcount]; simp
  have hlin : npLinspace 0 40 (data.length : ℤ) =
      some ((List.range data.length).map
        (fun (k : ℕ) => (k : ℚ) * (40 / ((data.length : ℚ) - 1)))) := by
    unfold npLinspace
    rw [if_neg (by omega)]
    simp
  refine ⟨_, hlin, ?_, ?_, rfl⟩
  · unfold convert_dat convertDatBody
    rw [hnum, hlin]
    simp only [hp]
    rw [if_pos]
    · rfl
    · simp [hys]
  · rw [List.length_zip]
    simp [hys]


/-- C3 amended: on a single-column buffer of one non-blank header line and N
non-blank numeric data lines, conversion produces exactly N (x, y) pairs — one
per data line, not N − 1 — with the x values the `np.linspace(0, 40, N)` grid
over the fixed 0-40 domain and the y values read from the data lines. -/
theorem convert_dat_header_data_pairs (header : List Char) (data : List (List Char))
    (ys : List ℚ)
    (hh : isBlankLine header = false)
    (hd : ∀ l ∈ data, isBlankLine l = false)
    (hp : traverseOption (fun l => pyFloat (pyStrip l)) data = some ys) :
    ∃ t : List (ℚ × ℚ), convert_dat (header :: data) = some t ∧
      t.length = data.length ∧
      t.map Prod.snd = ys ∧
      t.map Prod.fst = (List.range data.length).map
        (fun (k : ℕ) => (k : ℚ) * (40 / ((data.length : ℚ) - 1))) := by
  obtain ⟨xs, hlin, hconv, hlen, hxs⟩ := convert_dat_success header data ys hh hd hp
  have hxslen : xs.length = data.length := by
    rw [hxs]; simp
  have hyslen : ys.length = data.length := traverseOption_length _ data ys hp
  refine ⟨xs.zip ys, hconv, hlen, ?_, ?_⟩
  · rw [List.map_snd_zip]
    rw [hxslen, hyslen]
  · rw [List.map_fst_zip, hxs]
    rw [hxslen, hyslen]

theorem pyFloat_one : pyFloat (pyStrip ['1', '.', '0']) = some 1 := by
  have h := pyFloat_of_parts (pyStrip ['1', '.', '0']) 1 0 1 (by decide) (by decide) (by decide)
  rw [h]
  norm_num

theorem pyFloat_two : pyFloat (pyStrip ['2', '.', '0']) = some 2 := by
  have h := pyFloat_of_parts (pyStrip ['2', '.', '0']) 2 0 1 (by decide) (by decide) (by decide)
  rw [h]
  norm_num

theorem pyFloat_three : pyFloat (pyStrip ['3', '.', '0']) = some 3 := by
  have h := pyFloat_of_parts (pyStrip ['3', '.', '0']) 3 0 1 (by decide) (by decide) (by decide)
  rw [h]
  norm_num

theorem pyFloat_threeFive : pyFloat (pyStrip ['3', '.', '5']) = some 3.5 := by
  have h := pyFloat_of_parts (pyStrip ['3', '.', '5']) 3 5 1 (by decide) (by decide) (by decide)
  rw [h]
  norm_num

/-- C3 counterexample: a single-column buffer of one header line and N = 3
non-blank numeric data lines converts to 3 pairs — x evenly spaced 0, 20, 40
over the fixed 0-40 domain — not to N − 1 = 2 pairs as claimed. -/
theorem convert_dat_pair_count_counterexample :
    convert_dat ["header".data, "1.0".data, "2.0".data, "3.0".data] =
      some [((0 : ℚ), (1 : ℚ)), (20, 2), (40, 3)] ∧
    (convert_dat ["header".data, "1.0".data, "2.0".data, "3.0".data]).map List.length ≠
      some 2 := by
  have htrav : traverseOption (fun l => pyFloat (pyStrip l))
      ["1.0".data, "2.0".data, "3.0".data] = some [1, 2, 3] := by
    simp [traverseOption, pyFloat_one, pyFloat_two, pyFloat_three]
  have hlin : npLinspace 0 40
      ((((["header".data, "1.0".data, "2.0".data, "3.0".data] : List (List Char)).filter
        fun l => !isBlankLine l).length : ℤ) - 1) = some [0, 20, 40] := by
    have hc : (((["header".data, "1.0".data, "2.0".data, "3.0".data] : List (List Char)).filter
        fun l => !isBlankLine l).length : ℤ) - 1 = 3 := by decide
    rw [hc]
    unfold npLinspace
    rw [if_neg (by omega)]
    have ht : (3 : ℤ).toNat = 3 := rfl
    rw [ht]
    norm_num [List.range_succ]
  have hbody : convert_dat ["header".data, "1.0".data, "2.0".data, "3.0".data] =
      some [((0 : ℚ), (1 : ℚ)), (20, 2), (40, 3)] := by
    unfold convert_dat convertDatBody
    rw [hlin]
    simp only [htrav]
    norm_num [List.zip_cons_cons]
    rfl
  refine ⟨hbody, ?_⟩
  rw [hbody]
  simp

/-- C3 witness: the amended theorem applied at the concrete buffer of one
header line and two data lines "1.0" and "3.5". -/
theorem convert_dat_header_data_pairs_witness :
    ∃ t : List (ℚ × ℚ),
      convert_dat ["h".data, "1.0".data, "3.5".data] = some t ∧
      t.length = ([ "1.0".data, "3.5".data ] : List (List Char)).length ∧
      t.map Prod.snd = [1, 3.5] ∧
      t.map Prod.fst = (List.range (([ "1.0".data, "3.5".data ] : List (List Char)).length)).map
        (fun (k : ℕ) => (k : ℚ) *
          (40 / (((([ "1.0".data, "3.5".data ] : List (List Char)).length : ℕ) : ℚ) - 1))) :=
  convert_dat_header_data_pairs "h".data ["1.0".data, "3.5".data] [1, 3.5]
    (by decide) (by decide)
    (by simp [traverseOption, pyFloat_one, pyFloat_threeFive])

/-! ## `convert_mon` (`app/tools/converters.py` lines 230-264) -/

/-- A data line of a `.mon` file: non-blank and not a `//` comment. -/
def isMonDataLine (l : List Char) : Bool :=
  !isBlankLine l && !(l.take 2 = ['/', '/'])

/-- The body of `convert_mon` over the file's lines, each given as its
Windows-1251 decode outcome (`none` = `UnicodeDecodeError`, which aborts the
whole body).  Every data line has its space runs collapsed, is stripped, has
spaces turned into commas and is split on commas into one csv row; blank and
`//` lines only feed the unused `metadata` list.  The row list stands for the
csv the source serializes. -/
def convertMonBody (lines : List (Option (List Char))) :
    Except Unit (List (List (List Char))) :=
  match traverseOption id lines with
  | none => throw ()
  | some ls =>
      pure ((ls.filter isMonDataLine).map fun l =>
        splitOnChar ',' (replaceChar ' ' ',' (pyStrip (collapseSpaces l))))

/-- `convert_mon`: the body with the enclosing `try`/`except` that turns every
exception into `None`. -/
def convert_mon (lines : List (Option (List Char))) :
    Option (List (List (List Char))) :=
  (convertMonBody lines).toOption

/-- C7: each conversion operation is total at its boundary — any exception its
body raises is caught and surfaced as `None` (first and third conjuncts), and a
returned table is complete: `convert_mon` emits exactly one row per decoded
data line, `convert_dat` exactly one (x, y) pair per line after the header —
never a partial table, never a propagated exception. -/
theorem conversion_total_boundary (mon : List (Option (List Char)))
    (dat : List (List Char)) :
    (∀ e, convertMonBody mon = Except.error e → convert_mon mon = none) ∧
    (convert_mon mon = none ∨
      ∃ ls t, traverseOption id mon = some ls ∧ convert_mon mon = some t ∧
        t.length = (ls.filter isMonDataLine).length) ∧
    (∀ e, convertDatBody dat = Except.error e → convert_dat dat = none) ∧
    (convert_dat dat = none ∨
      ∃ t, convert_dat dat = some t ∧ t.length + 1 = dat.length) := by
  have hthrow : (throw () : Except Unit (List (ℚ × ℚ))) = Except.error () := rfl
  refine ⟨?_, ?_, ?_, ?_⟩
  · intro e he
    unfold convert_mon
    rw [he]
    rfl
  · cases hls : traverseOption id mon with
    | none =>
        left
        unfold convert_mon convertMonBody
        rw [hls]
        rfl
    | some ls =>
        right
        refine ⟨ls, (ls.filter isMonDataLine).map (fun l =>
          splitOnChar ',' (replaceChar ' ' ',' (pyStrip (collapseSpaces l)))), ?_⟩
        refine ⟨rfl, ?_, ?_⟩
        · unfold convert_mon convertMonBody
          rw [hls]
          rfl
        · simp
  · intro e he
    unfold convert_dat
    rw [he]
    rfl
  · cases dat with
    | nil =>
        left
        unfold convert_dat convertDatBody
        simp [npLinspace, Except.toOption, throw, throwThe, MonadExceptOf.throw]
    | cons header rest =>
        cases hlin : npLinspace 0 40
            ((((header :: rest).filter fun l => !isBlankLine l).length : ℤ) - 1) with
        | none =>
            left
            unfold convert_dat
            simp only [convertDatBody, hlin]
            rfl
        | some xs =>
            cases htrav : traverseOption (fun l => pyFloat (pyStrip l)) rest with
            | none =>
                left
                unfold convert_dat
                simp only [convertDatBody, hlin, htrav]
                rfl
            | some ys =>
                by_cases hxy : xs.length = ys.length
                · right
                  refine ⟨xs.zip ys, ?_, ?_⟩
                  · unfold convert_dat
                    simp only [convertDatBody, hlin, htrav, if_pos hxy]
                    rfl
                  · have hyl : ys.length = rest.length :=
                      traverseOption_length _ rest ys htrav
                    rw [List.length_zip, hxy, hyl]
                    simp
                · left
                  unfold convert_dat
                  simp only [convertDatBody, hlin, htrav, if_neg hxy]
                  rfl

/-! ## Peak extraction (`app/tools/converters.py` lines 79-100,
`app/tasks/processing.py` lines 80-116, `app/tasks/tools.py` lines 60-77) -/

/-- One row of the dataframe the third-party `findpeaks` fit returns, in the
columns the query touches: position `x`, the (normalized) trace value `y`,
the detector's prominence `rank`, and the `peak` flag. -/
structure DfRow where
  x : ℚ
  y : ℚ
  rank : ℕ
  peak : Bool
  deriving DecidableEq

/-- An outcome of running the third-party detector: it can raise
(`Except.error`), return no result (`Option.none`, the `fit` returning `None`),
or return candidate rows.  The claims quantify over this oracle. -/
abbrev Detector := List ℚ → Except Unit (Option (List DfRow))

/-- `data / np.max(data)`: the loaded y-column normalized by its maximum
(`converters.py` line 89, `processing.py` line 103). -/
def normalizeByMax (ys : List ℚ) : List ℚ := ys.map fun y => y / npMax ys

/-- The fixed candidate filter of
`df.query("peak == True & rank != 0 & rank <= 40 & y >= 0.005")`. -/
def peakFilterRow (r : DfRow) : Bool :=
  r.peak && decide (r.rank ≠ 0) && decide (r.rank ≤ 40) && decide ((0.005 : ℚ) ≤ r.y)

/-- The same filter in the `tasks/tools.py` revision, whose height floor is
0.03. -/
def peakFilterRowTools (r : DfRow) : Bool :=
  r.peak && decide (r.rank ≠ 0) && decide (r.rank ≤ 40) && decide ((0.03 : ℚ) ≤ r.y)

/-- The body of `find_peaks` in `converters.py` (and of
`Spectrum.find_peaks`): normalize the y-column by its maximum (numpy raises on
empty data), run the detector, return `None` when it yields no result, and
otherwise keep the x positions of the rows passing the fixed filter. -/
def findPeaksBody (fit : Detector) (ys : List ℚ) : Except Unit (Option (List ℚ)) :=
  if ys.isEmpty then throw ()
  else
    match fit (normalizeByMax ys) with
    | Except.error e => Except.error e
    | Except.ok none => pure none
    | Except.ok (some df) => pure (some ((df.filter peakFilterRow).map DfRow.x))

/-- `find_peaks` of `converters.py`: the body inside a `try`/`except` that
turns every raised exception into the `None` no-peaks result. -/
def find_peaks (fit : Detector) (ys : List ℚ) : Option (List ℚ) :=
  match findPeaksBody fit ys with
  | Except.error _ => none
  | Except.ok r => r

/-- `find_peaks` of `tasks/tools.py` lines 60-77: the same pipeline with the
0.03 height floor and, crucially, no enclosing `try` — whatever the numeric
computation raises leaves the function. -/
def find_peaks_tools (fit : Detector) (ys : List ℚ) : Except Unit (Option (List ℚ)) :=
  if ys.isEmpty then throw ()
  else
    match fit (normalizeByMax ys) with
    | Except.error e => Except.error e
    | Except.ok none => pure none
    | Except.ok (some df) => pure (some ((df.filter peakFilterRowTools).map DfRow.x))

/-- C5: peak extraction hands the detector the y-column divided by its maximum,
and its result is exactly the x positions of the candidate rows passing all the
fixed filters — every returned peak comes from a row with the peak flag set,
rank ≠ 0, rank ≤ 40 and normalized height ≥ 0.005, and no candidate violating
any filter is returned. -/
theorem find_peaks_candidate_filters (fit : Detector) (ys : List ℚ)
    (df : List DfRow) (out : List ℚ)
    (hdf : fit (ys.map fun y => y / npMax ys) = Except.ok (some df))
    (hout : find_peaks fit ys = some out) :
    out = (df.filter peakFilterRow).map DfRow.x ∧
    (∀ p ∈ out, ∃ r ∈ df, r.x = p ∧ r.peak = true ∧ r.rank ≠ 0 ∧ r.rank ≤ 40 ∧
      (0.005 : ℚ) ≤ r.y) ∧
    (∀ r ∈ df, peakFilterRow r = false →
      r.x ∉ ((df.filter peakFilterRow).map DfRow.x) ∨
        ∃ r2 ∈ df, r2 ≠ r ∧ r2.x = r.x ∧ peakFilterRow r2 = true) := by
  have hys : ys.isEmpty = false := by
    by_contra hcon
    have h1 : ys.isEmpty = true := by
      cases h2 : ys.isEmpty
      · exact absurd h2 hcon
      · rfl
    unfold find_peaks findPeaksBody at hout
    rw [if_pos h1] at hout
    exact Option.noConfusion (show (none : Option (List ℚ)) = some out from hout)
  have hbody : find_peaks fit ys = some ((df.filter peakFilterRow).map DfRow.x) := by
    unfold find_peaks findPeaksBody normalizeByMax
    rw [if_neg (by simp [hys]), hdf]
    rfl
  have hout2 : out = (df.filter peakFilterRow).map DfRow.x := by
    rw [hbody] at hout
    exact (Option.some.inj hout).symm
  refine ⟨hout2, ?_, ?_⟩
  · intro p hp
    rw [hout2] at hp
    rw [List.mem_map] at hp
    obtain ⟨r, hr, hrx⟩ := hp
    rw [List.mem_filter] at hr
    refine ⟨r, hr.1, hrx, ?_⟩
    have := hr.2
    unfold peakFilterRow at this
    simp only [Bool.and_eq_true, decide_eq_true_eq] at this
    exact ⟨this.1.1.1, this.1.1.2, this.1.2, this.2⟩
  · intro r hr hfail
    by_cases hmem : r.x ∈ (df.filter peakFilterRow).map DfRow.x
    · right
      rw [List.mem_map] at hmem
      obtain ⟨r2, hr2, hr2x⟩ := hmem
      rw [List.mem_filter] at hr2
      refine ⟨r2, hr2.1, ?_, hr2x, hr2.2⟩
      intro hcon
      rw [hcon] at hr2
      rw [hr2.2] at hfail
      exact Bool.noConfusion hfail
    · left
      exact hmem

/-- C5 witness: the filter theorem at a concrete detector outcome of two rows,
one passing and one (rank 0) excluded. -/
theorem find_peaks_candidate_filters_witness :
    [(2 : ℚ)] = (([⟨2, 1, 1, true⟩, ⟨7, 1, 0, true⟩] :
      List DfRow).filter peakFilterRow).map DfRow.x := by
  have hfit : (fun _ : List ℚ => (Except.ok (some ([⟨2, 1, 1, true⟩, ⟨7, 1, 0, true⟩] :
      List DfRow)) : Except Unit (Option (List DfRow))))
      (([(5 : ℚ)]).map fun y => y / npMax [(5 : ℚ)]) =
      Except.ok (some [⟨2, 1, 1, true⟩, ⟨7, 1, 0, true⟩]) := rfl
  have hfilter : (([⟨2, 1, 1, true⟩, ⟨7, 1, 0, true⟩] :
      List DfRow).filter peakFilterRow) = [⟨2, 1, 1, true⟩] := by
    simp only [peakFilterRow, List.filter_cons, List.filter_nil]
    norm_num
  have hout : find_peaks
      (fun _ : List ℚ => (Except.ok (some ([⟨2, 1, 1, true⟩, ⟨7, 1, 0, true⟩] :
        List DfRow)) : Except Unit (Option (List DfRow)))) [(5 : ℚ)] = some [(2 : ℚ)] := by
    unfold find_peaks findPeaksBody
    rw [if_neg (by decide)]
    simp only [hfilter]
    rfl
  exact (find_peaks_candidate_filters _ [(5 : ℚ)] _ [(2 : ℚ)] hfit hout).1

/-- A detector run that raises, standing for any numeric exception inside the
third-party computation (degenerate data, denoise failure, and so on). -/
def fitRaises : Detector := fun _ => Except.error ()

/-- C6 counterexample: on the flat trace [1, 1] with the underlying computation
raising, the `tasks/tools.py` find_peaks propagates the exception to its
caller — it returns neither the `None` no-peaks result nor an empty peak
set. -/
theorem find_peaks_tools_propagates_counterexample :
    find_peaks_tools fitRaises [1, 1] = Except.error () ∧
    find_peaks_tools fitRaises [1, 1] ≠ Except.ok none ∧
    find_peaks_tools fitRaises [1, 1] ≠ Except.ok (some []) := by
  have h : find_peaks_tools fitRaises [1, 1] = Except.error () := by
    unfold find_peaks_tools fitRaises
    rw [if_neg (by decide)]
  refine ⟨h, ?_, ?_⟩
  · rw [h]
    intro hcon
    exact Except.noConfusion hcon
  · rw [h]
    intro hcon
    exact Except.noConfusion hcon

/-- C6 amended: the `converters.py`/`processing.py` peak extraction catches
every exception of the underlying computation and maps it to the `None`
no-peaks result, and likewise returns no-peaks when the detector yields no
result; but the `tasks/tools.py` revision has no `try` and propagates any such
exception to its caller. -/
theorem find_peaks_error_policy (fit : Detector) (ys : List ℚ) :
    (∀ e, findPeaksBody fit ys = Except.error e → find_peaks fit ys = none) ∧
    (fit (normalizeByMax ys) = Except.ok none → ys ≠ [] → find_peaks fit ys = none) ∧
    (∀ e, fit (normalizeByMax ys) = Except.error e → ys ≠ [] →
      find_peaks_tools fit ys = Except.error e) := by
  refine ⟨?_, ?_, ?_⟩
  · intro e he
    unfold find_peaks
    rw [he]
  · intro hfit hne
    unfold find_peaks findPeaksBody
    rw [if_neg (by simp [hne]), hfit]
    rfl
  · intro e hfit hne
    unfold find_peaks_tools
    rw [if_neg (by simp [hne]), hfit]

/-! ## `convert_dpt` and the csv Sniffer (`app/tools/converters.py`
lines 103-134) -/

/-- The delimiters `csv.Sniffer` prefers, in its order. -/
def preferredDelimiters : List Char := [',', '\t', ';', ' ', ':']

/-- Occurrences of a character on a line. -/
def countChar (c : Char) (l : List Char) : ℕ := (l.filter fun d => d = c).length

/-- Modelled outcome of `csv.Sniffer().sniff` on the unquoted samples this
repository converts: the first preferred delimiter that occurs the same
positive number of times on every nonempty sample line.  `none` is the
`csv.Error` (could not determine delimiter) that the caller's `try` turns into
`None`.  The sniffed dialect's line terminator is always CRLF. -/
def sniffDelimiter (sample : Buf) : Option Char :=
  let ls := (splitLines sample).filter fun l => !l.isEmpty
  preferredDelimiters.find? fun c =>
    !ls.isEmpty && ls.all fun l =>
      decide (countChar c l = countChar c (ls.headD [])) && decide (0 < countChar c l)

/-- The type `csv.Sniffer().has_header` assigns a cell: an int literal, a
float literal, or (failing both) its length.  (Complex literals beyond float
syntax do not occur in this repository's data and are outside the model.) -/
inductive CellKind where
  | kInt
  | kFloat
  | kLen (n : ℕ)
  deriving DecidableEq

/-- The kind of one cell. -/
def cellKind (s : List Char) : CellKind :=
  if (pyInt s).isSome then CellKind.kInt
  else if (pyFloat s).isSome then CellKind.kFloat
  else CellKind.kLen s.length

/-- A column's accumulated kind while `has_header` scans the sample rows:
never seen, seen with a consistent kind, or dropped as inconsistent. -/
inductive ColKind where
  | unset
  | inconsistent
  | consistent (k : CellKind)
  deriving DecidableEq

/-- One scan step of `has_header` on a column. -/
def colKindStep (st : ColKind) (k : CellKind) : ColKind :=
  match st with
  | ColKind.unset => ColKind.consistent k
  | ColKind.inconsistent => ColKind.inconsistent
  | ColKind.consistent k0 => if k = k0 then ColKind.consistent k0 else ColKind.inconsistent

/-- The kind `has_header` settles on for column `i` of the data rows. -/
def columnKind (rows : List (List (List Char))) (i : ℕ) : ColKind :=
  rows.foldl (fun st r => colKindStep st (cellKind (r.getD i []))) ColKind.unset

/-- The `has_header` vote of column `i`: +1 when the header cell does not fit
the column's kind (a header), −1 when it does, 0 for an inconsistent column; a
column never seen (no data rows) votes +1, as the stdlib's failed cast of the
column type does. -/
def colVote (header : List (List Char)) (rows : List (List (List Char))) (i : ℕ) : ℤ :=
  match columnKind rows i with
  | ColKind.inconsistent => 0
  | ColKind.unset => 1
  | ColKind.consistent CellKind.kInt =>
      if (pyInt (header.getD i [])).isSome then -1 else 1
  | ColKind.consistent CellKind.kFloat =>
      if (pyFloat (header.getD i [])).isSome then -1 else 1
  | ColKind.consistent (CellKind.kLen n) =>
      if (header.getD i []).length ≠ n then 1 else -1

/-- `csv.Sniffer().has_header(sample)`: parse the sample with the sniffed
delimiter, take the first row as header candidate, scan up to 20 further rows
of matching width, and declare a header when the columns' votes sum
positive. -/
def snifferHasHeader (sample : Buf) (delim : Char) : Bool :=
  match (splitLines sample).map (splitOnChar delim) with
  | [] => false
  | header :: rows =>
      let dataRows := (rows.filter fun r => r.length = header.length).take 20
      decide (0 < (((List.range header.length).map fun i =>
        colVote header dataRows i).foldl (· + ·) 0))

/-- `convert_dpt` (`converters.py` lines 103-134): sniff the dialect on the
first 1024 characters (abort on a sniff error), refuse buffers the Sniffer
calls headered, re-read the rows with the default comma reader and re-serialize
them with the csv writer — whose line terminator, for the sniffed dialect as
for `excel`, is CRLF.  Quoted fields are outside the model; `.dpt` data is
bare numbers. -/
def convert_dpt (buf : Buf) : Option Buf :=
  match sniffDelimiter (buf.take 1024) with
  | none => none
  | some d =>
      if snifferHasHeader (buf.take 1024) d then none
      else
        some (((splitLines buf).map fun l =>
          joinWith [','] (splitOnChar ',' l) ++ ['\r', '\n']).flatten)

/-- `np.loadtxt(file, delimiter=",")[:, 1]`: the second field of each row as a
float. -/
def loadtxtCol1 (buf : Buf) : Option (List ℚ) :=
  traverseOption (fun l => pyFloat ((splitOnChar ',' l).getD 1 [])) (splitLines buf)

/-- C4 counterexample: conversion of the raw buffer "100.0,0.01\n101.0,0.02\n"
returns its rows re-terminated with CRLF — not a byte-for-byte identical
buffer. -/
theorem convert_dpt_not_identity_counterexample :
    convert_dpt "100.0,0.01\n101.0,0.02\n".data =
      some "100.0,0.01\r\n101.0,0.02\r\n".data ∧
    ("100.0,0.01\r\n101.0,0.02\r\n".data : List Char) ≠
      "100.0,0.01\n101.0,0.02\n".data := by
  constructor
  · decide
  · decide

/-- C4 amended: conversion of the raw .dpt buffer keeps its two rows but
serializes them with the csv writer's CRLF line terminator; loading the
converted table's y-column gives the 2-point series 0.01, 0.02, and peak
extraction on it maps any detector exception to the `None` no-peaks result
and returns the empty peak set whenever no candidate passes the fixed filter —
it never fails. -/
theorem convert_dpt_two_point_scenario :
    convert_dpt "100.0,0.01\n101.0,0.02\n".data =
      some "100.0,0.01\r\n101.0,0.02\r\n".data ∧
    loadtxtCol1 "100.0,0.01\r\n101.0,0.02\r\n".data = some [0.01, 0.02] ∧
    (∀ fit : Detector, ∀ e, findPeaksBody fit [(0.01 : ℚ), 0.02] = Except.error e →
      find_peaks fit [(0.01 : ℚ), 0.02] = none) ∧
    (∀ fit : Detector, ∀ df : List DfRow,
      fit (normalizeByMax [(0.01 : ℚ), 0.02]) = Except.ok (some df) →
      df.filter peakFilterRow = [] → find_peaks fit [(0.01 : ℚ), 0.02] = some []) := by
  refine ⟨by decide, ?_, ?_, ?_⟩
  · have h1 : pyFloat ((splitOnChar ','
        ['1', '0', '0', '.', '0', ',', '0', '.', '0', '1'])[1]?.getD []) = some 0.01 := by
      have h := pyFloat_of_parts ((splitOnChar ','
        ['1', '0', '0', '.', '0', ',', '0', '.', '0', '1'])[1]?.getD []) 0 1 2
        (by decide) (by decide) (by decide)
      rw [h]
      norm_num
    have h2 : pyFloat ((splitOnChar ','
        ['1', '0', '1', '.', '0', ',', '0', '.', '0', '2'])[1]?.getD []) = some 0.02 := by
      have h := pyFloat_of_parts ((splitOnChar ','
        ['1', '0', '1', '.', '0', ',', '0', '.', '0', '2'])[1]?.getD []) 0 2 2
        (by decide) (by decide) (by decide)
      rw [h]
      norm_num
    have hsplit : splitLines "100.0,0.01\r\n101.0,0.02\r\n".data =
        [("100.0,0.01" : String).data, ("101.0,0.02" : String).data] := by decide
    unfold loadtxtCol1
    rw [hsplit]
    simp [traverseOption, h1, h2]
  · intro fit e he
    unfold find_peaks
    rw [he]
  · intro fit df hdf hfilt
    unfold find_peaks findPeaksBody
    rw [if_neg (by decide), hdf]
    simp only [hfilt]
    rfl

/-! ## `handle_thz` (`app/tasks/processing.py` lines 337-415) -/

/-- The reference record as `handle_thz` uses it: its downloaded raw file and
the result of converting it to csv. -/
structure RefRecord where
  refRawFile : Option String
  refCsvFile : Option String

/-- Everything one `handle_thz` run consumes, with the collaborator calls —
reference lookup, record fetch, THz extraction, upload — as oracles.  The
record ids and file payloads are opaque to the control flow. -/
structure ThzCtx where
  rawFile : Option String
  refId : Option ℕ
  getRefSpectrum : ℕ → Option RefRecord
  sampleCsv : Option String
  sampleThickness : Option ℚ
  runProcessThz : String → String → ℚ → Option String
  upload : String → Option ℕ

/-- What one `handle_thz` run did: the terminal status it set, the file it
uploaded (if any), whether it invoked the THz optical-constant extraction, and
the message it returned (the source interpolates the record id into the
message; the model keeps the fixed text). -/
structure ThzOutcome where
  status : String
  uploaded : Option String
  ranThz : Bool
  message : String
  deriving DecidableEq

/-- `handle_thz`, line for line: missing raw file is an error; with a
reference id, fetch the reference record, require its raw file, require both
conversions, require the sample thickness, run `process_thz` and upload its
output; with no reference id, upload the sample's own converted csv and finish
successfully. -/
def handle_thz (c : ThzCtx) : ThzOutcome :=
  match c.rawFile with
  | none => ⟨"error", none, false, "Error processing spectrum with id"⟩
  | some _ =>
      match c.refId with
      | some rid =>
          match c.getRefSpectrum rid with
          | none => ⟨"error", none, false, "Error retrieving reference spectrum with id"⟩
          | some rr =>
              match rr.refRawFile with
              | none => ⟨"error", none, false, "Error getting spectrum file from server"⟩
              | some _ =>
                  match rr.refCsvFile, c.sampleCsv with
                  | some refCsv, some sampleCsv =>
                      match c.sampleThickness with
                      | none =>
                          ⟨"error", none, false,
                            "Error while processing. Sample thickness is not provided"⟩
                      | some d =>
                          match c.runProcessThz refCsv sampleCsv d with
                          | some thzData =>
                              match c.upload thzData with
                              | none =>
                                  ⟨"error", none, true,
                                    "Error uploading processing data to spectrum with id"⟩
                              | some _ =>
                                  ⟨"successful", some thzData, true,
                                    "Done processing for spectrum with id"⟩
                          | none =>
                              ⟨"error", none, true, "Error processing spectrum with id"⟩
                  | _, _ => ⟨"error", none, false, "Error processing spectrum with id"⟩
      | none =>
          match c.sampleCsv with
          | none => ⟨"error", none, false, "Error coverting spectrum with id"⟩
          | some csvF =>
              match c.upload csvF with
              | none =>
                  ⟨"error", none, false,
                    "Error uploading processing data to spectrum with id"⟩
              | some _ =>
                  ⟨"successful", some csvF, false, "Done processing for spectrum with id"⟩

/-- C8: a terahertz record whose reference lookup returns absent is not an
error — the orchestrator skips the optical-constant extraction, uploads the
converted canonical csv as an ordinary spectrum, and terminates with the
successful status (conversion and upload succeeding). -/
theorem handle_thz_no_reference (c : ThzCtx) (b csvF : String) (resp : ℕ)
    (hraw : c.rawFile = some b)
    (href : c.refId = none)
    (hcsv : c.sampleCsv = some csvF)
    (hup : c.upload csvF = some resp) :
    handle_thz c =
      ⟨"successful", some csvF, false, "Done processing for spectrum with id"⟩ := by
  unfold handle_thz
  simp only [hraw, href, hcsv, hup]

/-- A concrete context with no reference record. -/
def thzCtxNoRef : ThzCtx :=
  ⟨some "raw", none, fun _ => none, some "csv", none, fun _ _ _ => none, fun _ => some 200⟩

/-- C8 witness: the no-reference theorem at a concrete context. -/
theorem handle_thz_no_reference_witness :
    handle_thz thzCtxNoRef =
      ⟨"successful", some "csv", false, "Done processing for spectrum with id"⟩ :=
  handle_thz_no_reference thzCtxNoRef "raw" "csv" 200 rfl rfl rfl rfl

/-- C10: a terahertz record with a reference found and both conversions
succeeding, but no sample thickness, performs no THz extraction and no upload
and terminates with the error status and the thickness message. -/
theorem handle_thz_missing_thickness (c : ThzCtx) (b b2 refCsv sampleCsv : String)
    (rid : ℕ) (rr : RefRecord)
    (hraw : c.rawFile = some b)
    (href : c.refId = some rid)
    (hget : c.getRefSpectrum rid = some rr)
    (hrraw : rr.refRawFile = some b2)
    (hrcsv : rr.refCsvFile = some refCsv)
    (hscsv : c.sampleCsv = some sampleCsv)
    (hth : c.sampleThickness = none) :
    handle_thz c =
      ⟨"error", none, false, "Error while processing. Sample thickness is not provided"⟩ := by
  unfold handle_thz
  simp only [hraw, href, hget, hrraw, hrcsv, hscsv, hth]

/-- A concrete context with a reference record but no sample thickness. -/
def thzCtxNoThickness : ThzCtx :=
  ⟨some "raw", some 7, fun _ => some ⟨some "refraw", some "refcsv"⟩, some "csv", none,
    fun _ _ _ => some "thz", fun _ => some 200⟩

/-- C10 witness: the missing-thickness theorem at a concrete context. -/
theorem handle_thz_missing_thickness_witness :
    handle_thz thzCtxNoThickness =
      ⟨"error", none, false, "Error while processing. Sample thickness is not provided"⟩ :=
  handle_thz_missing_thickness thzCtxNoThickness "raw" "refraw" "refcsv" "csv" 7
    ⟨some "refraw", some "refcsv"⟩ rfl rfl rfl rfl rfl rfl rfl

/-! ## Metadata merge (`app/tasks/processing.py` lines 118-132) -/

/-- A JSON value. -/
inductive JVal where
  | num (q : ℚ)
  | str (s : String)
  | arr (l : List JVal)
  | obj (m : List (String × JVal))

/-- A JSON object, as an ordered key-value list (Python dicts keep insertion
order). -/
abbrev JObj := List (String × JVal)

/-- Outcome of `json.loads` on a metadata string, the stdlib parser modelled
by what it returns: a JSON object, some other JSON value (whose dict spread
then raises `TypeError`), or a parse failure (`ValueError`). -/
inductive JsonLoaded where
  | objVal (m : JObj)
  | otherVal (v : JVal)
  | parseFail

/-- The spectrum's metadata field, typed `str | dict | None` in the source: a
string (carried by its `json.loads` outcome), a mapping, or `None`. -/
inductive MetaVal where
  | mstr (r : JsonLoaded)
  | mdict (m : JObj)
  | mnone

/-- First-match lookup in an ordered object. -/
def jlookup (m : JObj) (k : String) : Option JVal :=
  (m.find? fun kv => kv.1 == k).map fun kv => kv.2

/-- The Python double-spread of two dicts: the first dict's keys in their
order with values overridden by the second, then the second's new keys in its
order. -/
def pyDictMerge (a b : JObj) : JObj :=
  (a.map fun kv => (kv.1, (jlookup b kv.1).getD kv.2)) ++
    b.filter fun kv => !(a.any fun kv2 => kv2.1 == kv.1)

/-- The value of `Spectrum.construct_peak_metadata`'s peaks list: one
position object per peak. -/
def peaksJson (ps : List ℚ) : JVal :=
  JVal.arr (ps.map fun p => JVal.obj [("position", JVal.num p)])

/-- `Spectrum.construct_peak_metadata` (lines 118-124): `None` peaks give no
metadata, otherwise one `peaks` key holding the position objects. -/
def construct_peak_metadata (peaks : Option (List ℚ)) : Option JObj :=
  peaks.map fun ps => [("peaks", peaksJson ps)]

/-- `Spectrum.merge_metadata` (lines 126-132): a str metadata is json-loaded
and spread — with no enclosing `try`, an unparsable string raises `ValueError`
and a non-object parse raises `TypeError` from the dict spread; a dict is
spread directly; anything else falls through and the held metadata (`None`) is
returned unchanged. -/
def merge_metadata (meta : MetaVal) (add : JObj) : Except Unit (Option JObj) :=
  match meta with
  | MetaVal.mstr (JsonLoaded.objVal m) => Except.ok (some (pyDictMerge m add))
  | MetaVal.mstr (JsonLoaded.otherVal _) => Except.error ()
  | MetaVal.mstr JsonLoaded.parseFail => Except.error ()
  | MetaVal.mdict m => Except.ok (some (pyDictMerge m add))
  | MetaVal.mnone => Except.ok none

theorem jlookup_nil (kq : String) : jlookup ([] : JObj) kq = none := rfl

theorem jlookup_cons (kv : String × JVal) (rest : JObj) (kq : String) :
    jlookup (kv :: rest) kq = if kv.1 = kq then some kv.2 else jlookup rest kq := by
  by_cases hk : kv.1 = kq
  · unfold jlookup
    rw [List.find?_cons_of_pos _ (by simp [hk]), if_pos hk]
    rfl
  · unfold jlookup
    rw [List.find?_cons_of_neg _ (by simp [hk]), if_neg hk]

theorem jlookup_single_eq (k : String) (v : JVal) : jlookup [(k, v)] k = some v := by
  rw [jlookup_cons]
  simp

theorem jlookup_single_ne (k kq : String) (v : JVal) (hne : kq ≠ k) :
    jlookup [(k, v)] kq = none := by
  rw [jlookup_cons, if_neg (by simp [hne.symm])]
  rfl

theorem jlookup_append_cases (x y : JObj) (kq : String) :
    jlookup (x ++ y) kq =
      match jlookup x kq with
      | some v => some v
      | none => jlookup y kq := by
  induction x with
  | nil => simp [jlookup_nil]
  | cons kv rest ih =>
      rw [List.cons_append, jlookup_cons, jlookup_cons]
      by_cases hk : kv.1 = kq
      · rw [if_pos hk, if_pos hk]
      · rw [if_neg hk, if_neg hk]
        exact ih

theorem jlookup_mapPart_other (a : JObj) (k kq : String) (v : JVal) (hne : kq ≠ k) :
    jlookup (a.map fun kv => (kv.1, (jlookup [(k, v)] kv.1).getD kv.2)) kq =
      jlookup a kq := by
  induction a with
  | nil => rfl
  | cons kv rest ih =>
      rw [List.map_cons,
        jlookup_cons (kv.1, (jlookup [(k, v)] kv.1).getD kv.2)
          (List.map (fun kv => (kv.1, (jlookup [(k, v)] kv.1).getD kv.2)) rest) kq,
        jlookup_cons kv rest kq]
      by_cases hk : kv.1 = kq
      · rw [if_pos hk, if_pos hk]
        have h1 : jlookup [(k, v)] kv.1 = none := by
          rw [hk]
          exact jlookup_single_ne k kq v hne
        rw [show ((kv.1, (jlookup [(k, v)] kv.1).getD kv.2) : String × JVal).2 =
          (jlookup [(k, v)] kv.1).getD kv.2 from rfl, h1]
        rfl
      · rw [if_neg hk, if_neg hk]
        exact ih

theorem jlookup_mapPart_key (a : JObj) (k : String) (v : JVal) :
    jlookup (a.map fun kv => (kv.1, (jlookup [(k, v)] kv.1).getD kv.2)) k =
      (jlookup a k).map fun _ => v := by
  induction a with
  | nil => rfl
  | cons kv rest ih =>
      rw [List.map_cons,
        jlookup_cons (kv.1, (jlookup [(k, v)] kv.1).getD kv.2)
          (List.map (fun kv => (kv.1, (jlookup [(k, v)] kv.1).getD kv.2)) rest) k,
        jlookup_cons kv rest k]
      by_cases hk : kv.1 = k
      · rw [if_pos hk, if_pos hk]
        have h1 : jlookup [(k, v)] kv.1 = some v := by
          rw [hk]
          exact jlookup_single_eq k v
        rw [show ((kv.1, (jlookup [(k, v)] kv.1).getD kv.2) : String × JVal).2 =
          (jlookup [(k, v)] kv.1).getD kv.2 from rfl, h1]
        rfl
      · rw [if_neg hk, if_neg hk]
        exact ih

theorem jlookup_none_iff_not_any (a : JObj) (k : String) :
    jlookup a k = none ↔ (a.any fun kv2 => kv2.1 == k) = false := by
  unfold jlookup
  simp [List.find?_eq_none, List.any_eq_false]

theorem jlookup_filterPart_key (a : JObj) (k : String) (v : JVal) :
    jlookup (([(k, v)] : JObj).filter fun kv => !(a.any fun kv2 => kv2.1 == kv.1)) k =
      if (a.any fun kv2 => kv2.1 == k) = true then none else some v := by
  cases ha : (a.any fun kv2 => kv2.1 == k) with
  | true => simp [List.filter_cons, List.filter_nil, ha, jlookup_nil]
  | false => simp [List.filter_cons, List.filter_nil, ha, jlookup_single_eq]

theorem jlookup_filterPart_other (a : JObj) (k kq : String) (v : JVal) (hne : kq ≠ k) :
    jlookup (([(k, v)] : JObj).filter fun kv => !(a.any fun kv2 => kv2.1 == kv.1)) kq =
      none := by
  cases ha : (a.any fun kv2 => kv2.1 == k) with
  | true => simp [List.filter_cons, List.filter_nil, ha, jlookup_nil]
  | false =>
      simp only [List.filter_cons, List.filter_nil, ha]
      rw [if_pos (by simp)]
      exact jlookup_single_ne k kq v hne

theorem jlookup_merge_key (a : JObj) (k : String) (v : JVal) :
    jlookup (pyDictMerge a [(k, v)]) k = some v := by
  unfold pyDictMerge
  rw [jlookup_append_cases, jlookup_mapPart_key, jlookup_filterPart_key]
  cases hl : jlookup a k with
  | some v0 => rfl
  | none =>
      have hany := (jlookup_none_iff_not_any a k).mp hl
      simp [hany]

theorem jlookup_merge_other (a : JObj) (k kq : String) (v : JVal) (hne : kq ≠ k) :
    jlookup (pyDictMerge a [(k, v)]) kq = jlookup a kq := by
  unfold pyDictMerge
  rw [jlookup_append_cases, jlookup_mapPart_other a k kq v hne,
    jlookup_filterPart_other a k kq v hne]
  cases jlookup a kq <;> rfl

/-- C9 counterexample: at a metadata string that is not valid JSON (the
`parseFail` loads outcome, e.g. the Python string "oops") the merge raises
`ValueError` instead of yielding no result, and at a string holding non-object
JSON (e.g. "[1]") it raises `TypeError` from the dict spread. -/
theorem merge_metadata_raises_counterexample :
    merge_metadata (MetaVal.mstr JsonLoaded.parseFail) [("peaks", peaksJson [1])] =
      Except.error () ∧
    merge_metadata (MetaVal.mstr JsonLoaded.parseFail) [("peaks", peaksJson [1])] ≠
      Except.ok none ∧
    merge_metadata (MetaVal.mstr (JsonLoaded.otherVal (JVal.arr [JVal.num 1])))
      [("peaks", peaksJson [1])] = Except.error () := by
  refine ⟨rfl, ?_, rfl⟩
  intro h
  exact Except.noConfusion h

/-- C9 amended: for a metadata value that is a JSON-object string or a
mapping, the merged metadata is the pre-existing mapping with the `peaks` key
bound to the one-position-object-per-peak list and every other key unchanged;
a `None` metadata yields no result; but a string metadata that is not a JSON
object raises (`ValueError` when unparsable, `TypeError` from the spread of a
non-object) rather than yielding no result. -/
theorem merge_metadata_extends_peaks (m : JObj) (ps : List ℚ) :
    construct_peak_metadata (some ps) = some [("peaks", peaksJson ps)] ∧
    merge_metadata (MetaVal.mstr (JsonLoaded.objVal m)) [("peaks", peaksJson ps)] =
      Except.ok (some (pyDictMerge m [("peaks", peaksJson ps)])) ∧
    merge_metadata (MetaVal.mdict m) [("peaks", peaksJson ps)] =
      Except.ok (some (pyDictMerge m [("peaks", peaksJson ps)])) ∧
    jlookup (pyDictMerge m [("peaks", peaksJson ps)]) "peaks" = some (peaksJson ps) ∧
    (∀ k, k ≠ "peaks" → jlookup (pyDictMerge m [("peaks", peaksJson ps)]) k =
      jlookup m k) ∧
    (∀ v, merge_metadata (MetaVal.mstr (JsonLoaded.otherVal v))
      [("peaks", peaksJson ps)] = Except.error ()) ∧
    merge_metadata (MetaVal.mstr JsonLoaded.parseFail) [("peaks", peaksJson ps)] =
      Except.error () ∧
    merge_metadata MetaVal.mnone [("peaks", peaksJson ps)] = Except.ok none := by
  refine ⟨rfl, rfl, rfl, jlookup_merge_key m "peaks" (peaksJson ps), ?_,
    fun v => rfl, rfl, rfl⟩
  intro k hk
  exact jlookup_merge_other m "peaks" k (peaksJson ps) hk

end HsdbSpd
